import Mathlib

/-!
Verification of the SimpleRustChatApp chat server
(src/SimpleRustChatApp/src/main.rs) against its natural-language
specification.

The shallow embedding below translates the pure data model and the
ChatManager operations from the Rust source.  Rust String values become
Lean String values; Vec<Message> becomes List Message; the
HashMap<SocketAddr, User> guarded by a Mutex becomes a lookup function
SocketAddr -> Option User (the observable behaviour of insert / remove /
lookup on a hash map); Uuid::new_v4().to_string(), an external source of
fresh identifiers, is modelled as a fresh-identifier supply threaded
through the state as a counter, which captures the freshness the program
relies on.  Rust str::contains is modelled by an executable substring
test over the character lists of the strings.
-/

/-- Executable substring occurrence test on character lists: does `pat`
occur contiguously inside the second list?  This is the model of Rust
str::contains. -/
def containsSub (pat : List Char) : List Char → Bool
  | [] => pat.isEmpty
  | c :: cs => pat.isPrefixOf (c :: cs) || containsSub pat cs

/-- Rust `s.contains(pat)` : `pat` occurs as a contiguous substring of `s`. -/
def strContains (s pat : String) : Bool :=
  containsSub pat.data s.data

/-- The specification reading of "contains as a substring", stated
abstractly as contiguous-sublist containment of the character sequences. -/
def SpecContains (s pat : String) : Prop :=
  pat.data <:+: s.data

theorem containsSub_iff (pat l : List Char) : containsSub pat l = true ↔ pat <:+: l := by
  induction l with
  | nil =>
    simp [containsSub, List.isEmpty_iff]
  | cons c cs ih =>
    simp [containsSub, ih, List.infix_cons_iff]

theorem strContains_iff (s pat : String) : strContains s pat = true ↔ SpecContains s pat :=
  containsSub_iff pat.data s.data

instance (s pat : String) : Decidable (SpecContains s pat) :=
  decidable_of_iff (strContains s pat = true) (strContains_iff s pat)

/-- Rust struct `Message { sender_id, content, timestamp }`.  The field
`sender_id` in the source in fact stores the display name of the sender
(the session constructs it with `user.name.clone()`). -/
structure Message where
  sender_id : String
  content : String
  timestamp : String
deriving DecidableEq

/-- Rust `Message::format`: `format!("[{}] {}: {}", timestamp, sender_id, content)`. -/
def Message.format (m : Message) : String :=
  "[" ++ m.timestamp ++ "] " ++ m.sender_id ++ ": " ++ m.content

/-- Rust `Message::matches`: `content.contains(keyword) || sender_id.contains(keyword)`. -/
def Message.matches (m : Message) (keyword : String) : Bool :=
  strContains m.content keyword || strContains m.sender_id keyword

/-- The connection key of a session.  The source uses the remote
SocketAddr; only its identity (decidable equality) matters, so it is
modelled by Nat. -/
abbrev SocketAddr := Nat

/-- Rust struct `User { id, name }`.  The id is produced by
`Uuid::new_v4().to_string()`; it is modelled as a value drawn from a
fresh-identifier supply (a Nat counter threaded through the state), which
captures the freshness invariant the source relies on.  The id is never
consumed anywhere else in the program. -/
structure User where
  id : Nat
  name : String
deriving DecidableEq

/-- Rust struct `ChatManager { messages: Arc<Mutex<Vec<Message>>>,
users: Arc<Mutex<HashMap<SocketAddr, User>>> }`, plus the fresh-identifier
supply `nextId` modelling the external uuid generator.  The hash map is
modelled by its lookup function. -/
structure ChatManager where
  messages : List Message
  users : SocketAddr → Option User
  nextId : Nat

/-- Rust `ChatManager::new`. -/
def ChatManager.new : ChatManager :=
  { messages := [], users := fun _ => none, nextId := 0 }

/-- Rust `ChatManager::store_message`: `self.messages.lock().unwrap().push(msg)`. -/
def ChatManager.store_message (cm : ChatManager) (msg : Message) : ChatManager :=
  { cm with messages := cm.messages ++ [msg] }

/-- Rust `ChatManager::search_messages`:
`messages.iter().filter(|m| m.matches(query)).map(|m| m.format()).collect()`. -/
def ChatManager.search_messages (cm : ChatManager) (query : String) : List String :=
  (cm.messages.filter (fun m => m.matches query)).map Message.format

/-- Rust `ChatManager::register_user`: builds a User with a fresh uuid and
the given name, inserts it under `addr` (HashMap::insert, overwriting any
prior entry), and returns the User. -/
def ChatManager.register_user (cm : ChatManager) (addr : SocketAddr) (name : String) :
    User × ChatManager :=
  let user : User := { id := cm.nextId, name := name }
  (user,
    { cm with
      users := fun a => if a = addr then some user else cm.users a
      nextId := cm.nextId + 1 })

/-- Rust `ChatManager::remove_user`: `self.users.lock().unwrap().remove(addr)`
(the returned Option is discarded by the source). -/
def ChatManager.remove_user (cm : ChatManager) (addr : SocketAddr) : ChatManager :=
  { cm with users := fun a => if a = addr then none else cm.users a }

/-- Rust `ChatManager::search_messages_by_user`:
`messages.iter().filter(|m| m.sender_id.contains(user_name)).map(|m| m.format()).collect()`. -/
def ChatManager.search_messages_by_user (cm : ChatManager) (user_name : String) : List String :=
  (cm.messages.filter (fun m => strContains m.sender_id user_name)).map Message.format

/-- Rust `ChatManager::search_messages_by_keyword`.  Note that the body
filters on `msg.content.contains(keyword)` only, although its own comment
says "content or sender name" and `Message::matches` implements that
disjunction. -/
def ChatManager.search_messages_by_keyword (cm : ChatManager) (keyword : String) : List String :=
  (cm.messages.filter (fun m => strContains m.content keyword)).map Message.format

/-- Rust `line.trim()`: removes whitespace from both ends of the string. -/
def rustTrim (s : String) : String :=
  ⟨((s.data.dropWhile Char.isWhitespace).reverse.dropWhile Char.isWhitespace).reverse⟩

/-- Rust `s.starts_with(pat)`. -/
def rustStartsWith (s pat : String) : Bool :=
  pat.data.isPrefixOf s.data

/-- Character-level drop, used to model
`content.splitn(2, " ").nth(1).unwrap()` on a string that starts with the
command token followed by a space: the remainder after the first space is
the suffix starting right after the token, i.e. the string with the first
`n` characters removed where `n` is the token length including the space
(8 for "/search ", 6 for "/user "). -/
def strDropChars (s : String) (n : Nat) : String :=
  ⟨s.data.drop n⟩

/-- The boolean substring test of the source agrees pointwise with the
abstract substring-containment predicate of the specification. -/
theorem strContains_eq_decide (s pat : String) :
    strContains s pat = decide (SpecContains s pat) := by
  by_cases h : SpecContains s pat
  · simp [h, (strContains_iff s pat).mpr h]
  · have hf : strContains s pat = false := by
      rw [← Bool.not_eq_true]
      exact fun hc => h ((strContains_iff s pat).mp hc)
    simp [h, hf]

theorem containsSub_nil_left (l : List Char) : containsSub [] l = true := by
  induction l with
  | nil => rfl
  | cons c cs ih => simp [containsSub, ih]

/-- Every string contains the empty string as a substring. -/
theorem strContains_empty (s : String) : strContains s "" = true :=
  containsSub_nil_left s.data

/-- One call on the shared `ChatManager`, as issued by the session tasks.
The two search operations (and the unused `search_messages`) take `&self`
in the source and only read the message log under the lock, so they leave
the embedded state unchanged. -/
inductive Op where
  | register (addr : SocketAddr) (name : String)
  | unregister (addr : SocketAddr)
  | store (msg : Message)
  | searchKeyword (q : String)
  | searchUser (n : String)
  | search (q : String)

/-- State after one operation. -/
def applyOp (cm : ChatManager) : Op → ChatManager
  | .register a n => (cm.register_user a n).2
  | .unregister a => cm.remove_user a
  | .store m => cm.store_message m
  | .searchKeyword _ => cm
  | .searchUser _ => cm
  | .search _ => cm

/-- The ids allocated by one operation (only `register_user` allocates). -/
def allocatedIds (cm : ChatManager) : Op → List Nat
  | .register a n => [(cm.register_user a n).1.id]
  | _ => []

/-- Run a sequence of operations from a state, returning the final state
and every id allocated along the way, in order. -/
def runOps : ChatManager → List Op → ChatManager × List Nat
  | cm, [] => (cm, [])
  | cm, op :: ops =>
    let r := runOps (applyOp cm op) ops
    (r.1, allocatedIds cm op ++ r.2)

theorem applyOp_nextId_le (cm : ChatManager) (op : Op) :
    cm.nextId ≤ (applyOp cm op).nextId := by
  cases op <;>
    simp [applyOp, ChatManager.register_user, ChatManager.remove_user,
      ChatManager.store_message]

theorem runOps_nextId_le (ops : List Op) (cm : ChatManager) :
    cm.nextId ≤ (runOps cm ops).1.nextId := by
  induction ops generalizing cm with
  | nil => simp [runOps]
  | cons op ops ih =>
    simp only [runOps]
    exact le_trans (applyOp_nextId_le cm op) (ih (applyOp cm op))

theorem runOps_alloc_lt (ops : List Op) (cm : ChatManager) :
    ∀ i ∈ (runOps cm ops).2, i < (runOps cm ops).1.nextId := by
  induction ops generalizing cm with
  | nil => simp [runOps]
  | cons op ops ih =>
    intro i hi
    simp only [runOps, List.mem_append] at hi
    rcases hi with h | h
    · cases op <;> simp [allocatedIds] at h
      case register a n =>
        subst h
        have h1 : (ChatManager.register_user cm a n).1.id < (applyOp cm (Op.register a n)).nextId := by
          simp [applyOp, ChatManager.register_user]
        exact lt_of_lt_of_le h1 (runOps_nextId_le ops _)
    · exact ih _ i h

/-- C1: the claim states that search_by_keyword returns every message whose
content OR sender name contains the query.  The source function
`search_messages_by_keyword` filters on the content only, contradicting
its own comment ("content or sender name") and the `Message::matches`
helper (used by the sibling `search_messages` function) which implements
the disjunction.  At the failing input below, a message whose sender is
"alice" and whose content does not mention "alice" is classified as a
match by `Message::matches` and returned by `search_messages`, yet
`search_messages_by_keyword "alice"` returns the empty list. -/
theorem c1_keyword_search_ignores_sender :
    (ChatManager.mk [⟨"alice", "hi", "t"⟩] (fun _ => none) 0).search_messages_by_keyword "alice" = []
    ∧ Message.matches ⟨"alice", "hi", "t"⟩ "alice" = true
    ∧ (ChatManager.mk [⟨"alice", "hi", "t"⟩] (fun _ => none) 0).search_messages "alice"
        = [Message.format ⟨"alice", "hi", "t"⟩] :=
  ⟨rfl, rfl, rfl⟩

/-- C3: for every message log and every name string, search_by_user
returns exactly the subsequence of the log (preserving insertion order)
whose sender name contains the name as a substring, each message rendered
by `Message.format`.  The filter predicate is phrased with the abstract
substring-containment predicate `SpecContains`, and the subsequence part
is the `Sublist` fact. -/
theorem c3_search_by_user_spec (msgs : List Message) (users : SocketAddr → Option User)
    (nid : Nat) (n : String) :
    (ChatManager.mk msgs users nid).search_messages_by_user n
      = (msgs.filter (fun m => decide (SpecContains m.sender_id n))).map Message.format
    ∧ (msgs.filter (fun m => decide (SpecContains m.sender_id n))).Sublist msgs := by
  constructor
  · unfold ChatManager.search_messages_by_user
    congr 1
    exact List.filter_congr fun m _ => strContains_eq_decide m.sender_id n
  · exact List.filter_sublist msgs

/-- C4: the message log is append-only.  Every operation on the shared
state extends the log (the old log is a prefix of the new one);
store_message appends exactly at the end; remove_user (a user leaving)
never touches the log; and searches issued after a removal still see the
same results, so history survives a departure. -/
theorem c4_log_append_only :
    (∀ (cm : ChatManager) (op : Op), cm.messages <+: (applyOp cm op).messages)
    ∧ (∀ (cm : ChatManager) (m : Message), (cm.store_message m).messages = cm.messages ++ [m])
    ∧ (∀ (cm : ChatManager) (q : String),
        applyOp cm (Op.searchKeyword q) = cm ∧ applyOp cm (Op.searchUser q) = cm)
    ∧ (∀ (cm : ChatManager) (a : SocketAddr), (cm.remove_user a).messages = cm.messages)
    ∧ (∀ (cm : ChatManager) (a : SocketAddr) (q : String),
        (cm.remove_user a).search_messages_by_keyword q = cm.search_messages_by_keyword q
        ∧ (cm.remove_user a).search_messages_by_user q = cm.search_messages_by_user q) := by
  refine ⟨?_, ?_, ?_, ?_, ?_⟩
  · intro cm op
    cases op <;>
      simp [applyOp, ChatManager.register_user, ChatManager.remove_user,
        ChatManager.store_message, List.prefix_append]
  · intro cm m; rfl
  · intro cm q; exact ⟨rfl, rfl⟩
  · intro cm a; rfl
  · intro cm a q; exact ⟨rfl, rfl⟩

/-- C5: register then unregister then unregister again never fails.  The
first unregister removes the entry; the second finds the key absent, is a
no-op, and leaves the registry (the whole state) unchanged.  All three
operations are total functions of the state, so no call can fail. -/
theorem c5_unregister_idempotent (cm : ChatManager) (a : SocketAddr) (n : String) :
    ((cm.register_user a n).2.users a = some (cm.register_user a n).1)
    ∧ (((cm.register_user a n).2.remove_user a).users a = none)
    ∧ (((cm.register_user a n).2.remove_user a).remove_user a
        = (cm.register_user a n).2.remove_user a) := by
  refine ⟨by simp [ChatManager.register_user], by simp [ChatManager.remove_user], ?_⟩
  unfold ChatManager.remove_user
  congr 1
  funext x
  by_cases h : x = a <;> simp [h]

/-- C6: after any sequence of operations from the initial state,
registering under any key and requested name returns a User carrying the
requested name, inserts it under the key (silently overwriting any prior
entry, with no error possible since the operation is total), and the id
it allocates is distinct from every id allocated by any earlier register
call of the run. -/
theorem c6_register_fresh_id (ops : List Op) (a : SocketAddr) (n : String) :
    (((runOps ChatManager.new ops).1.register_user a n).1.name = n)
    ∧ (((runOps ChatManager.new ops).1.register_user a n).2.users a
        = some ((runOps ChatManager.new ops).1.register_user a n).1)
    ∧ (((runOps ChatManager.new ops).2.contains
        ((runOps ChatManager.new ops).1.register_user a n).1.id) = false) := by
  refine ⟨rfl, by simp [ChatManager.register_user], ?_⟩
  rw [← Bool.not_eq_true]
  intro hc
  have hmem : ((runOps ChatManager.new ops).1.register_user a n).1.id
      ∈ (runOps ChatManager.new ops).2 := by
    simpa using hc
  have hlt := runOps_alloc_lt ops ChatManager.new _ hmem
  simp [ChatManager.register_user] at hlt

/-- C10: with the empty string as query, both searches return the whole
log, formatted, in insertion order, because every string contains the
empty string as a substring. -/
theorem c10_empty_query_returns_all (cm : ChatManager) :
    cm.search_messages_by_keyword "" = cm.messages.map Message.format
    ∧ cm.search_messages_by_user "" = cm.messages.map Message.format := by
  constructor
  · unfold ChatManager.search_messages_by_keyword
    rw [List.filter_congr fun m _ => strContains_empty m.content]
    simp
  · unfold ChatManager.search_messages_by_user
    rw [List.filter_congr fun m _ => strContains_empty m.sender_id]
    simp

/-- One event observed by the Active loop of a session task: the
tokio::select! either yields a line read from the client (or end of
stream, or a read error), or a value from the broadcast subscription
(or a receive error, which the source silently ignores).  A failing
write of the prompt to the client is the representative write failure. -/
inductive SessionEvent where
  | line (raw : String)
  | eof
  | readErr
  | recvOk (msg : String)
  | recvErr
  | writeErr

/-- One externally visible action of a session task, in program order:
writing to its own client, appending to the store, publishing on the
broadcast channel, or removing its registry entry. -/
inductive Act where
  | prompt
  | writeOut (s : String)
  | append (m : Message)
  | unregister
  | publish (s : String)
deriving DecidableEq

/-- How a run of the Active loop ended: still waiting for events, fell
through the loop and ran the cleanup code (normal), or aborted by a
panicking `.unwrap()` (panic skips everything after it, including the
cleanup after the loop). -/
inductive ExitKind where
  | running
  | normal
  | panic
deriving DecidableEq

structure SessionResult where
  acts : List Act
  cm : ChatManager
  exit : ExitKind

/-- The Active loop of the session task in `main`, from just after the
join announcement, consuming a finite list of select outcomes, followed
by the cleanup code after the loop (`remove_user` then the
"has left." publish).  `user` and `key` are the registered user and the
connection address of this session; `ts` gives the value of
`Local::now()` at each successive call, counted by `clock`.  Each
iteration first writes the "> " prompt; a `.unwrap()` on a failed read
or write panics, which aborts the task at that point: nothing after it
runs. -/
def sessionRun (user : User) (key : SocketAddr) (ts : Nat → String) :
    ChatManager → Nat → List SessionEvent → SessionResult
  | cm, _, [] => ⟨[], cm, .running⟩
  | cm, clock, e :: rest =>
    match e with
    | .writeErr => ⟨[], cm, .panic⟩
    | .readErr => ⟨[.prompt], cm, .panic⟩
    | .eof =>
      ⟨[.prompt, .unregister, .publish (user.name ++ " has left.")],
        cm.remove_user key, .normal⟩
    | .recvErr =>
      let r := sessionRun user key ts cm clock rest
      ⟨.prompt :: r.acts, r.cm, r.exit⟩
    | .recvOk m =>
      let r := sessionRun user key ts cm clock rest
      ⟨.prompt :: .writeOut m :: .writeOut "\n" :: r.acts, r.cm, r.exit⟩
    | .line raw =>
      let content := rustTrim raw
      if content == "exit" then
        ⟨[.prompt, .unregister,
          .publish ("\n\n*** " ++ user.name ++ " has left at " ++ ts clock ++ " ***\n\n"),
          .unregister, .publish (user.name ++ " has left.")],
          (cm.remove_user key).remove_user key, .normal⟩
      else if rustStartsWith content "/search " then
        let results := cm.search_messages_by_keyword (strDropChars content 8)
        let writes :=
          if results.isEmpty then [Act.writeOut "No results found.\n"]
          else Act.writeOut "Search results by keyword:\n"
            :: results.flatMap (fun s => [Act.writeOut s, Act.writeOut "\n"])
        let r := sessionRun user key ts cm clock rest
        ⟨.prompt :: (writes ++ r.acts), r.cm, r.exit⟩
      else if rustStartsWith content "/user " then
        let results := cm.search_messages_by_user (strDropChars content 6)
        let writes :=
          if results.isEmpty then [Act.writeOut "No results found.\n"]
          else Act.writeOut "Search results by user:\n"
            :: results.flatMap (fun s => [Act.writeOut s, Act.writeOut "\n"])
        let r := sessionRun user key ts cm clock rest
        ⟨.prompt :: (writes ++ r.acts), r.cm, r.exit⟩
      else
        let m : Message := ⟨user.name, content, ts clock⟩
        let r := sessionRun user key ts (cm.store_message m) (clock + 1) rest
        ⟨.prompt :: .append m :: .publish m.format :: r.acts, r.cm, r.exit⟩

/-- C2 (amended): on the exit-command and end-of-stream exit paths the
session removes its UserRegistry entry before the task terminates; on a
read or write failure, however, the `.unwrap()` panic aborts the task
before the post-loop `remove_user` runs, so the entry is not removed.
This theorem proves the amended claim: whenever the Active loop
terminates normally (exit command or end of stream), the act trace
contains the unregister call and the final registry has no entry for the
session key. -/
theorem c2_cleanup_on_normal_exit (u : User) (key : SocketAddr) (ts : Nat → String)
    (cm : ChatManager) (clock : Nat) (events : List SessionEvent)
    (h : (sessionRun u key ts cm clock events).exit = .normal) :
    Act.unregister ∈ (sessionRun u key ts cm clock events).acts
    ∧ (sessionRun u key ts cm clock events).cm.users key = none := by
  induction events generalizing cm clock with
  | nil => simp [sessionRun] at h
  | cons e rest ih =>
    cases e with
    | writeErr => simp [sessionRun] at h
    | readErr => simp [sessionRun] at h
    | eof =>
      refine ⟨by simp [sessionRun], ?_⟩
      simp [sessionRun, ChatManager.remove_user]
    | recvErr =>
      simp only [sessionRun] at h ⊢
      obtain ⟨h1, h2⟩ := ih cm clock h
      exact ⟨List.mem_cons_of_mem _ h1, h2⟩
    | recvOk m =>
      simp only [sessionRun] at h ⊢
      obtain ⟨h1, h2⟩ := ih cm clock h
      exact ⟨by simp [h1], h2⟩
    | line raw =>
      simp only [sessionRun] at h ⊢
      by_cases h1 : (rustTrim raw == "exit") = true
      · simp only [h1, if_true] at h ⊢
        refine ⟨by simp, by simp [ChatManager.remove_user]⟩
      · rw [Bool.not_eq_true] at h1
        simp only [h1, Bool.false_eq_true, if_false] at h ⊢
        by_cases h2 : rustStartsWith (rustTrim raw) "/search " = true
        · simp only [h2, if_true] at h ⊢
          obtain ⟨ha, hb⟩ := ih cm clock h
          exact ⟨List.mem_cons_of_mem _ (List.mem_append_right _ ha), hb⟩
        · rw [Bool.not_eq_true] at h2
          simp only [h2, Bool.false_eq_true, if_false] at h ⊢
          by_cases h3 : rustStartsWith (rustTrim raw) "/user " = true
          · simp only [h3, if_true] at h ⊢
            obtain ⟨ha, hb⟩ := ih cm clock h
            exact ⟨List.mem_cons_of_mem _ (List.mem_append_right _ ha), hb⟩
          · rw [Bool.not_eq_true] at h3
            simp only [h3, Bool.false_eq_true, if_false] at h ⊢
            obtain ⟨ha, hb⟩ := ih _ _ h
            exact ⟨by simp [ha], hb⟩

/-- Witness for the amended C2 theorem at a concrete input: a registered
session whose client closes the stream (end of stream). -/
theorem c2_cleanup_on_normal_exit_witness :
    Act.unregister ∈ (sessionRun ⟨0, "alice"⟩ 0 (fun _ => "t")
        (ChatManager.new.register_user 0 "alice").2 0 [.eof]).acts
    ∧ (sessionRun ⟨0, "alice"⟩ 0 (fun _ => "t")
        (ChatManager.new.register_user 0 "alice").2 0 [.eof]).cm.users 0 = none :=
  c2_cleanup_on_normal_exit ⟨0, "alice"⟩ 0 (fun _ => "t")
    (ChatManager.new.register_user 0 "alice").2 0 [.eof] rfl

/-- C2 counterexample: the claim as stated fails on the read-failure exit
path.  With the user registered under key 0, a read error makes
`result.unwrap()` panic: the task terminates (exit kind panic), the act
trace is just the prompt write with no unregister, and the registry still
holds the entry for the session key. -/
theorem c2_counterexample_readfail_leaves_entry :
    (sessionRun ⟨0, "alice"⟩ 0 (fun _ => "t")
        (ChatManager.new.register_user 0 "alice").2 0 [.readErr]).exit = .panic
    ∧ (sessionRun ⟨0, "alice"⟩ 0 (fun _ => "t")
        (ChatManager.new.register_user 0 "alice").2 0 [.readErr]).acts = [Act.prompt]
    ∧ (sessionRun ⟨0, "alice"⟩ 0 (fun _ => "t")
        (ChatManager.new.register_user 0 "alice").2 0 [.readErr]).cm.users 0
      = some ⟨0, "alice"⟩ :=
  ⟨rfl, rfl, rfl⟩

/-- C7: a bare `/search` or `/user` line (no argument, so no trailing
space) fails the `starts_with` tests and falls through to the plain-chat
branch: a Message with the bare token as content is appended to the store
and its rendered form is published; no usage error is written to the
client and no search runs. -/
theorem c7_bare_command_is_chat (u : User) (key : SocketAddr) (ts : Nat → String)
    (cm : ChatManager) (clock : Nat) :
    (sessionRun u key ts cm clock [.line "/search\n"]
      = ⟨[.prompt, .append ⟨u.name, "/search", ts clock⟩,
          .publish (Message.format ⟨u.name, "/search", ts clock⟩)],
         cm.store_message ⟨u.name, "/search", ts clock⟩, .running⟩)
    ∧ (sessionRun u key ts cm clock [.line "/user\n"]
      = ⟨[.prompt, .append ⟨u.name, "/user", ts clock⟩,
          .publish (Message.format ⟨u.name, "/user", ts clock⟩)],
         cm.store_message ⟨u.name, "/user", ts clock⟩, .running⟩) :=
  ⟨rfl, rfl⟩

/-- C9: on the exact line "exit" the session publishes two distinct leave
announcements in order: the formatted banner (built before breaking out
of the loop) and then, from the cleanup code after the loop, the plain
"has left." message, with the registry removal happening before each of
the two publishes (the second removal finding the key already absent). -/
theorem c9_exit_two_leave_announcements (u : User) (key : SocketAddr) (ts : Nat → String)
    (cm : ChatManager) (clock : Nat) :
    sessionRun u key ts cm clock [.line "exit\n"]
      = ⟨[.prompt, .unregister,
          .publish ("\n\n*** " ++ u.name ++ " has left at " ++ ts clock ++ " ***\n\n"),
          .unregister, .publish (u.name ++ " has left.")],
         (cm.remove_user key).remove_user key, .normal⟩ :=
  rfl

/-- Modelled from the spec: the Broadcaster component is realised in the
source by `tokio::sync::broadcast::channel(100)`, an external crate whose
implementation is not part of this repository.  Per the specification a
subscriber owns an independently buffered receive stream with a fixed
bounded capacity and a missed-messages indication (tokio surfaces it as
the Lagged receive error, counted here). -/
structure Subscriber where
  buffer : List String
  missed : Nat
deriving DecidableEq

/-- Modelled from the spec: delivery of one published text to one
subscriber.  If the buffer has room the text is enqueued at the back;
if the buffer is full the oldest buffered message is dropped to make
room and the missed-messages counter is raised.  The function is total:
delivery never blocks and never fails, whatever the buffer state. -/
def publishSub (cap : Nat) (text : String) (s : Subscriber) : Subscriber :=
  if s.buffer.length < cap then { s with buffer := s.buffer ++ [text] }
  else { buffer := s.buffer.tail ++ [text], missed := s.missed + 1 }

/-- Modelled from the spec: the broadcast channel, a fixed configured
capacity (100 in the source) and the currently subscribed receivers. -/
structure Broadcaster where
  capacity : Nat
  subs : List Subscriber

/-- Modelled from the spec: `publish` delivers the text to every
currently subscribed receiver buffer, independently; with zero
subscribers it is a no-op, not an error. -/
def Broadcaster.publish (b : Broadcaster) (text : String) : Broadcaster :=
  { b with subs := b.subs.map (publishSub b.capacity text) }

/-- C8: publish is a total function (it never blocks or fails the
publisher): subscriber `i` after a publish depends only on subscriber `i`
before it, so one full buffer affects nobody else; if a subscriber
buffer is full its oldest entry is dropped and its missed-messages
counter is raised; if there is room the text is simply enqueued; the
channel itself (its capacity) is untouched by a publish. -/
theorem c8_publish_nonblocking :
    (∀ (b : Broadcaster) (text : String) (i : Nat),
      (b.publish text).subs[i]? = (b.subs[i]?).map (publishSub b.capacity text))
    ∧ (∀ (cap : Nat) (text : String) (s : Subscriber),
        s.buffer.length = cap → 0 < cap →
        publishSub cap text s = ⟨s.buffer.tail ++ [text], s.missed + 1⟩)
    ∧ (∀ (cap : Nat) (text : String) (s : Subscriber),
        s.buffer.length < cap →
        publishSub cap text s = ⟨s.buffer ++ [text], s.missed⟩)
    ∧ (∀ (b : Broadcaster) (text : String), (b.publish text).capacity = b.capacity) := by
  refine ⟨?_, ?_, ?_, ?_⟩
  · intro b text i
    simp [Broadcaster.publish]
  · intro cap text s hlen hcap
    unfold publishSub
    rw [if_neg (by omega)]
  · intro cap text s hlt
    unfold publishSub
    rw [if_pos hlt]
  · intro b text
    rfl

/-- Witness for the C8 theorem: a subscriber with a full buffer of
capacity 2 drops its oldest entry and records the miss, while one with
room just enqueues. -/
theorem c8_publish_nonblocking_witness :
    publishSub 2 "x" ⟨["a", "b"], 0⟩ = ⟨["b", "x"], 1⟩
    ∧ publishSub 2 "x" ⟨["a"], 0⟩ = ⟨["a", "x"], 0⟩ :=
  ⟨c8_publish_nonblocking.2.1 2 "x" ⟨["a", "b"], 0⟩ rfl (by omega),
   c8_publish_nonblocking.2.2.1 2 "x" ⟨["a"], 0⟩ (by decide)⟩
